import Mathlib

/-!
Verification development for the tadau analytics-reporting client.

The repository holds two implementations of the Google Analytics
measurement-protocol wrapper:

* `py/measurement_protocol.py` (class `Tadau`, 2024) — modelled in
  namespace `Py` below;
* `tadau/measurement_protocol.py` (class `Tadau`, 2023, legacy) —
  modelled in namespace `Legacy` below.

Python dictionaries of scalar values are modelled as association lists
`List (String × Value)` with unique keys; dictionary assignment is
`setParam` (replace the binding if the key is present, else append, which
preserves Python's insertion order).  The random `uuid.uuid4()` generator
is modelled as an explicit stream of identifiers, and the HTTP transport
(`requests.post`) as an oracle `Payload → Bool` telling whether a given
post succeeds or raises; the code never inspects the response beyond
logging, so this is the only information the transport can contribute.
-/

/-- Scalar values stored in event records, configuration and parameter
maps: Python `str`, `int`, `bool` and `None`. -/
inductive Value where
  | str (s : String)
  | int (n : Int)
  | bool (b : Bool)
  | null
deriving DecidableEq

/-- Python truthiness of a scalar value: `None`, `""`, `0` and `False`
are falsy, everything else is truthy. -/
def Value.truthy : Value → Bool
  | .str s => !(s == "")
  | .int n => !(n == 0)
  | .bool b => b
  | .null => false

/-- Python string interpolation `f"{v}"` of a scalar value. -/
def Value.render : Value → String
  | .str s => s
  | .int n => toString n
  | .bool b => if b then "True" else "False"
  | .null => "None"

/-- An event record: the externally supplied dictionary passed to
`send_events` / `process` (string keys to scalar values). -/
abbrev Record := List (String × Value)

/-- A parameter map (`params` / `fixed_dimensions` dictionaries). -/
abbrev Params := List (String × Value)

/-- Python `d.get(k)`: the value bound to `k`, if any. -/
def lookupKey : List (String × Value) → String → Option Value
  | [], _ => none
  | (k1, v1) :: rest, k => if k1 = k then some v1 else lookupKey rest k

/-- Python `k in d`. -/
def hasKey : List (String × Value) → String → Bool
  | [], _ => false
  | (k1, _) :: rest, k => if k1 = k then true else hasKey rest k

/-- Python dictionary assignment `d[k] = v`: replace the binding of `k`
when present (keeping its position), otherwise append the new binding at
the end (insertion order). -/
def setParam : List (String × Value) → String → Value → List (String × Value)
  | [], k, v => [(k, v)]
  | (k1, v1) :: rest, k, v =>
      if k1 = k then (k, v) :: rest else (k1, v1) :: setParam rest k v

/-- One entry of the `events` array of the wire payload. -/
structure GAEvent where
  name : String
  params : Params
deriving DecidableEq

/-- The JSON body POSTed to the collect endpoint. -/
structure Payload where
  non_personalized_ads : Bool
  client_id : String
  user_id : Option String
  events : List GAEvent
deriving DecidableEq

/-- Python truthiness of an `Optional[str]` (`None` and `""` falsy). -/
def optStrTruthy : Option String → Bool
  | none => false
  | some s => !(s == "")

namespace Py

/-- `_GA_COLLECT_URL` (`py/measurement_protocol.py` line 28). -/
def GA_COLLECT_URL : String := "https://www.google-analytics.com/mp/collect"

/-- `_GA_REQUEST_KEYS` (`py/measurement_protocol.py` lines 29-33). -/
def GA_REQUEST_KEYS : List String := ["name", "client_id", "user_id"]

/-- `_GA_RESERVERD_KEYS` (`py/measurement_protocol.py` lines 34-40). -/
def GA_RESERVED_KEYS : List String :=
  ["api_secret", "measurement_id", "app_instance_id", "uuid", "timestamp_micros"]

/-- `_is_valid_param` (`py/measurement_protocol.py` lines 43-54):
`key not in reserved_keys and value is not None and value`. -/
def is_valid_param (key : String) (value : Value) (reserved_keys : List String) : Bool :=
  !(decide (key ∈ reserved_keys)) && !(value == Value.null) && value.truthy

/-- `_format_to_alphanumeric` (`py/measurement_protocol.py` lines 57-66):
`re.sub(r"[^a-zA-Z0-9-]", "", text)` removes every character outside
ASCII letters, digits and the hyphen. -/
def keepAlnumChar (c : Char) : Bool :=
  (decide (Char.ofNat 97 ≤ c) && decide (c ≤ Char.ofNat 122)) ||
  (decide (Char.ofNat 65 ≤ c) && decide (c ≤ Char.ofNat 90)) ||
  (decide (Char.ofNat 48 ≤ c) && decide (c ≤ Char.ofNat 57)) ||
  c == Char.ofNat 45

def format_to_alphanumeric (text : String) : String :=
  String.mk (text.toList.filter keepAlnumChar)

/-- The state of a `Tadau` instance (`py/measurement_protocol.py`
lines 102-143): the four public attributes.  `opt_in` is kept as a raw
scalar because the constructor accepts (and the class docstring shows)
both booleans and strings. -/
structure Tadau where
  api_secret : Option String
  measurement_id : Option String
  opt_in : Value
  fixed_dimensions : Params
deriving DecidableEq

/-- `Tadau._is_valid_instance` (`py/measurement_protocol.py`
lines 167-183): both credentials must be truthy strings. -/
def Tadau.is_valid_instance (t : Tadau) : Bool :=
  optStrTruthy t.api_secret && optStrTruthy t.measurement_id

/-- Python `str.lower` on an ASCII character (the configuration strings
this code compares are ASCII). -/
def charLower (c : Char) : Char :=
  if 65 ≤ c.toNat ∧ c.toNat ≤ 90 then Char.ofNat (c.toNat + 32) else c

/-- Python `str.lower`. -/
def strLower (s : String) : String :=
  String.mk (s.toList.map charLower)

/-- Python whitespace as recognised by `str.strip`. -/
def isPySpace (c : Char) : Bool :=
  c.toNat = 32 || c.toNat = 9 || c.toNat = 10 || c.toNat = 13 ||
    c.toNat = 11 || c.toNat = 12

/-- Python `str.strip`: remove leading and trailing whitespace. -/
def stripStr (s : String) : String :=
  String.mk (((s.toList.dropWhile isPySpace).reverse.dropWhile isPySpace).reverse)

/-- `Tadau._is_opt_in` (`py/measurement_protocol.py` lines 156-165):
`opt_in.lower().strip() == "true"`.  Only strings have `lower`; any
other scalar raises `AttributeError`. -/
def Tadau.is_opt_in (v : Value) : Except String Bool :=
  match v with
  | .str s => .ok (stripStr (strLower s) == "true")
  | _ => .error "AttributeError"

/-- `Tadau.__init__` without a config file (`py/measurement_protocol.py`
lines 102-154): stores the parameters as given, then (under `__debug__`)
raises `AssertionError` when not opted in or when the credentials are
invalid.  Note that a directly passed `opt_in` is used verbatim: it is
not passed through `_is_opt_in`. -/
def Tadau.init (api_secret measurement_id : Option String) (opt_in : Value)
    (fixed_dimensions : Option Params) : Except String Tadau :=
  let t : Tadau :=
    { api_secret := api_secret
      measurement_id := measurement_id
      opt_in := opt_in
      fixed_dimensions := fixed_dimensions.getD [] }
  if !t.opt_in.truthy then
    .error "Tadau: Class initiated not opted in"
  else if !t.is_valid_instance then
    .error "Tadau: invalid api_secret or measurement_id"
  else
    .ok t

/-- `Tadau.__init__` with a config file whose load succeeded
(`py/measurement_protocol.py` lines 126-133): the file's values replace
the direct parameters, and only on this path is `opt_in` interpreted by
`_is_opt_in` (`config.get("opt_in", "false")` defaults to the string
`"false"`). -/
def Tadau.initFromConfig (api_secret measurement_id : Option String)
    (opt_in_raw : Value) (fixed_dimensions : Option Params) : Except String Tadau := do
  let b ← Tadau.is_opt_in opt_in_raw
  Tadau.init api_secret measurement_id (.bool b) fixed_dimensions

/-- The reserved keys used inside `send_events`
(`py/measurement_protocol.py` line 244):
`self._reserved_keys + self._request_keys`. -/
def eventReservedKeys : List String := GA_RESERVED_KEYS ++ GA_REQUEST_KEYS

/-- The parameter-merging loop of `send_events`
(`py/measurement_protocol.py` lines 247-255): `params` starts as
`self.fixed_dimensions` itself (the dictionary is aliased, not copied)
and each valid record field is assigned into it. -/
def overlayParams (fd : Params) (row : Record) : Params :=
  row.foldl
    (fun m kv => if is_valid_param kv.1 kv.2 eventReservedKeys then setParam m kv.1 kv.2 else m)
    fd

/-- Outcome of processing one record of a batch. -/
inductive RecResult where
  /-- The record was skipped because its `name` was missing or falsy. -/
  | skipped
  /-- An exception was raised while building the payload (a truthy
  non-string `name` makes `re.sub` raise `TypeError`) and caught. -/
  | errored
  /-- The payload was POSTed and the transport returned. -/
  | sent (p : Payload)
  /-- The payload was POSTed and the transport raised; the exception was
  caught. -/
  | postFailed (p : Payload)
deriving DecidableEq

/-- The payload whose POST was attempted, if any. -/
def RecResult.attempted? : RecResult → Option Payload
  | .sent p => some p
  | .postFailed p => some p
  | _ => none

/-- The payloads whose POST was attempted, in order. -/
def attemptedPosts (rs : List RecResult) : List Payload :=
  rs.filterMap RecResult.attempted?

/-- The body of the per-record loop of `send_events`
(`py/measurement_protocol.py` lines 229-277), acting on the current
`fixed_dimensions` dictionary `fd` and returning the record's outcome
together with the dictionary after the merge (which, through aliasing,
is the instance's new `fixed_dimensions`).  `genId` stands for the
`str(uuid.uuid4())` drawn for this record and `postOk` for the
transport. -/
def processRecord (genId : String) (postOk : Payload → Bool) (fd : Params)
    (row : Record) : RecResult × Params :=
  match lookupKey row "name" with
  | none => (.skipped, fd)
  | some nameVal =>
    if !nameVal.truthy then (.skipped, fd)
    else
      let clientVal := (lookupKey row "client_id").getD .null
      let client_id := if clientVal.truthy then clientVal.render else genId
      let params := overlayParams fd row
      match nameVal with
      | .str s =>
        let userVal := (lookupKey row "user_id").getD .null
        let payload : Payload :=
          { non_personalized_ads := true
            client_id := client_id
            user_id := if userVal.truthy then some userVal.render else none
            events := [⟨format_to_alphanumeric s, params⟩] }
        if postOk payload then (.sent payload, params) else (.postFailed payload, params)
      | _ => (.errored, params)

/-- The per-record loop of `send_events`, threading the (aliased)
`fixed_dimensions` dictionary and numbering records so each can draw its
own generated identifier. -/
def sendLoop (gen : Nat → String) (postOk : Payload → Bool) :
    Nat → Params → List Record → Params × List RecResult
  | _, fd, [] => (fd, [])
  | i, fd, row :: rest =>
    let step := processRecord (gen i) postOk fd row
    let next := sendLoop gen postOk (i + 1) step.2 rest
    (next.1, step.1 :: next.2)

/-- `Tadau.send_events` (`py/measurement_protocol.py` lines 213-277):
returns immediately when not opted in, when the instance is invalid, or
when the batch is empty; otherwise processes each record in its own
failure boundary.  The returned `Tadau` is the instance after the call
(its `fixed_dimensions` is the dictionary the loop mutated). -/
def Tadau.send_events (gen : Nat → String) (postOk : Payload → Bool)
    (t : Tadau) (events : List Record) : Tadau × List RecResult :=
  if !t.opt_in.truthy then (t, [])
  else if !t.is_valid_instance then (t, [])
  else if events.isEmpty then (t, [])
  else
    let r := sendLoop gen postOk 0 t.fixed_dimensions events
    ({ t with fixed_dimensions := r.1 }, r.2)

end Py

namespace Legacy

/-- The reserved keys of the legacy class
(`tadau/measurement_protocol.py` lines 24-25). -/
def reservedKeys : List String :=
  ["app_instance_id", "client_id", "uuid", "user_id", "timestamp_micros"]

/-- `Tadau._validate_param` (`tadau/measurement_protocol.py`
lines 31-33): `key not in reserved_keys and value is not None and
value != ''` — unlike the 2024 class, zero and `False` pass. -/
def validate_param (key : String) (value : Value) (reserved_keys : List String) : Bool :=
  !(decide (key ∈ reserved_keys)) && !(value == Value.null) && !(value == Value.str "")

/-- `Tadau._filter_alphanumeric_only` (`tadau/measurement_protocol.py`
lines 35-37): same regex as the 2024 `_format_to_alphanumeric`. -/
def filter_alphanumeric_only (text : String) : String :=
  String.mk (text.toList.filter Py.keepAlnumChar)

/-- The body of one iteration of `Tadau.process`
(`tadau/measurement_protocol.py` lines 41-69).  `.ok none` is the
`continue` for a falsy `client_id`; `.error` is any raised exception
(`KeyError` for a missing `name`, `TypeError` for a non-string one, or
a transport failure). -/
def body (postOk : Payload → Bool) (row : Record) : Except String (Option Payload) :=
  let clientVal := (lookupKey row "client_id").getD .null
  if !clientVal.truthy then .ok none
  else
    match lookupKey row "name" with
    | none => .error "KeyError"
    | some nameVal =>
      match nameVal with
      | .str s =>
        let userVal := (lookupKey row "user_id").getD .null
        let params := row.filter (fun kv => validate_param kv.1 kv.2 (reservedKeys ++ ["name"]))
        let payload : Payload :=
          { non_personalized_ads := true
            client_id := clientVal.render
            user_id := if userVal.truthy then some userVal.render else none
            events := [⟨filter_alphanumeric_only s, params⟩] }
        if postOk payload then .ok (some payload) else .error "ConnectionError"
      | _ => .error "TypeError"

/-- `Tadau.process` (`tadau/measurement_protocol.py` lines 39-71): the
`try` block wraps the whole `for` loop and the handler is `except:
pass`, so the first exception silently ends the batch.  Returns the
successfully delivered payloads in order. -/
def process (postOk : Payload → Bool) : List Record → List Payload
  | [] => []
  | row :: rest =>
    match body postOk row with
    | .ok none => process postOk rest
    | .ok (some p) => p :: process postOk rest
    | .error _ => []

end Legacy

namespace Py

/-- Whether a record passes the `if not row.get("name")` guard of
`send_events` (`py/measurement_protocol.py` line 231). -/
def nameTruthyB (row : Record) : Bool :=
  ((lookupKey row "name").getD .null).truthy

/-- Whether a record's `name`, if truthy, is a string (a truthy
non-string `name` makes `re.sub` raise `TypeError` inside the per-record
`try` block). -/
def nameWellTyped (row : Record) : Bool :=
  match lookupKey row "name" with
  | some (Value.str _) => true
  | some v => !v.truthy
  | none => true

/-- The `client_id` of the payload built for a record
(`py/measurement_protocol.py` line 236): the record's own value when
truthy, rendered as a string, otherwise the generated identifier. -/
def expectedClientId (genId : String) (row : Record) : String :=
  if ((lookupKey row "client_id").getD .null).truthy then
    ((lookupKey row "client_id").getD .null).render
  else genId

/-- The `user_id` of the payload built for a record
(`py/measurement_protocol.py` lines 262-265): present exactly when the
record's value is truthy. -/
def expectedUserId (row : Record) : Option String :=
  if ((lookupKey row "user_id").getD .null).truthy then
    some ((lookupKey row "user_id").getD .null).render
  else none

/-- The payload `send_events` builds for a record whose `name` is the
non-empty string `s`, starting from the dictionary `fd`. -/
def dispatchPayload (genId : String) (fd : Params) (row : Record) (s : String) : Payload :=
  { non_personalized_ads := true
    client_id := expectedClientId genId row
    user_id := expectedUserId row
    events := [⟨format_to_alphanumeric s, overlayParams fd row⟩] }

/-- Whether construction succeeded. -/
def initOk (e : Except String Tadau) : Bool :=
  match e with
  | .ok _ => true
  | .error _ => false

end Py

/-! ### Concrete fixtures used by witnesses and counterexamples -/

/-- A reporter constructed as in the repository's own test
`test_fixed_dimensions`: opted in, valid credentials, one fixed
dimension. -/
def tFixed : Py.Tadau :=
  { api_secret := some "1232"
    measurement_id := some "G-1223214"
    opt_in := Value.bool true
    fixed_dimensions := [("deploy_id", Value.str "X")] }

/-- A reporter that is not opted in (`opt_in` the boolean `False`). -/
def tOptOut : Py.Tadau :=
  { api_secret := some "1232"
    measurement_id := some "G-1223214"
    opt_in := Value.bool false
    fixed_dimensions := [("deploy_id", Value.str "X")] }

/-- A record with a name, a client id and one custom parameter. -/
def rowBasic : Record :=
  [("name", Value.str "n"), ("client_id", Value.str "c"), ("value", Value.str "42")]

/-- The record of the repository's `test_event_name_validation`. -/
def rowTestName : Record :=
  [("client_id", Value.str "123"), ("name", Value.str "event name 1"),
   ("value", Value.str "42"), ("important_event", Value.str "False"),
   ("user_id", Value.str "11")]

/-- A record whose `name` is a non-empty string but which has no
`client_id`. -/
def rowNoClient : Record :=
  [("name", Value.str "event_name"), ("value", Value.str "42")]

/-- A record with a `client_id` but no `name` key at all. -/
def rowNoName : Record :=
  [("client_id", Value.str "123"), ("value", Value.str "42")]

/-- A record with a `client_id` and an empty-string `name`. -/
def rowEmptyName : Record :=
  [("client_id", Value.str "123"), ("name", Value.str "")]

/-- A record that supplies its own truthy `deploy_id`, overriding the
fixed dimension of the same name. -/
def rowOverride : Record :=
  [("name", Value.str "n"), ("client_id", Value.str "c"), ("deploy_id", Value.str "Y")]

/-- A fixed generated-identifier stream and an always-succeeding
transport, for concrete evaluations. -/
def genU : Nat → String := fun i => "uuid-" ++ toString i

def postAlways : Payload → Bool := fun _ => true

def postNever : Payload → Bool := fun _ => false

/-! ### Dictionary lemmas -/

@[simp] theorem lookupKey_nil (k : String) : lookupKey [] k = none := rfl

@[simp] theorem lookupKey_cons (k1 : String) (v1 : Value) (rest : List (String × Value))
    (k : String) :
    lookupKey ((k1, v1) :: rest) k = if k1 = k then some v1 else lookupKey rest k := rfl

@[simp] theorem hasKey_nil (k : String) : hasKey [] k = false := rfl

@[simp] theorem hasKey_cons (k1 : String) (v1 : Value) (rest : List (String × Value))
    (k : String) :
    hasKey ((k1, v1) :: rest) k = if k1 = k then true else hasKey rest k := rfl

theorem lookup_setParam_self (m : List (String × Value)) (k : String) (v : Value) :
    lookupKey (setParam m k v) k = some v := by
  induction m with
  | nil => simp [setParam]
  | cons kv rest ih =>
    obtain ⟨k1, v1⟩ := kv
    by_cases h : k1 = k
    · simp [setParam, h]
    · simp [setParam, h, ih]

theorem lookup_setParam_ne (m : List (String × Value)) (k k' : String) (v : Value)
    (h : k ≠ k') : lookupKey (setParam m k v) k' = lookupKey m k' := by
  induction m with
  | nil => simp [setParam, h]
  | cons kv rest ih =>
    obtain ⟨k1, v1⟩ := kv
    by_cases h1 : k1 = k
    · subst h1
      simp [setParam, h]
    · simp [setParam, h1, ih]

theorem hasKey_setParam_self (m : List (String × Value)) (k : String) (v : Value) :
    hasKey (setParam m k v) k = true := by
  induction m with
  | nil => simp [setParam]
  | cons kv rest ih =>
    obtain ⟨k1, v1⟩ := kv
    by_cases h : k1 = k
    · simp [setParam, h]
    · simp [setParam, h, ih]

theorem hasKey_setParam_mono (m : List (String × Value)) (k k' : String) (v : Value)
    (h : hasKey m k' = true) : hasKey (setParam m k v) k' = true := by
  induction m with
  | nil => simp at h
  | cons kv rest ih =>
    obtain ⟨k1, v1⟩ := kv
    by_cases h1 : k1 = k
    · subst h1
      by_cases h2 : k1 = k'
      · simp [setParam, h2]
      · simp [setParam, h2] at h
        simp [setParam, h2, h]
    · by_cases h2 : k1 = k'
      · subst h2
        simp [setParam, h1]
      · simp [h2] at h
        simp [setParam, h1, h2, ih h]

/-! ### Parameter-merge lemmas -/

namespace Py

theorem overlay_nil (fd : Params) : overlayParams fd [] = fd := rfl

theorem overlay_cons (fd : Params) (kv : String × Value) (rest : Record) :
    overlayParams fd (kv :: rest) =
      overlayParams
        (if is_valid_param kv.1 kv.2 eventReservedKeys then setParam fd kv.1 kv.2 else fd)
        rest := rfl

theorem hasKey_overlay_mono (fd : Params) (row : Record) (k : String)
    (h : hasKey fd k = true) : hasKey (overlayParams fd row) k = true := by
  induction row generalizing fd with
  | nil => exact h
  | cons kv rest ih =>
    rw [overlay_cons]
    apply ih
    by_cases hv : is_valid_param kv.1 kv.2 eventReservedKeys
    · simpa [hv] using hasKey_setParam_mono fd kv.1 k kv.2 h
    · simpa [hv] using h

theorem hasKey_overlay_of_mem (fd : Params) (row : Record) (k : String) (v : Value)
    (hm : (k, v) ∈ row) (hv : is_valid_param k v eventReservedKeys = true) :
    hasKey (overlayParams fd row) k = true := by
  induction row generalizing fd with
  | nil => simp at hm
  | cons kv rest ih =>
    rcases List.mem_cons.mp hm with hh | ht
    · rw [overlay_cons, ← hh]
      simp only [hv, if_true]
      exact hasKey_overlay_mono _ _ _ (hasKey_setParam_self fd k v)
    · rw [overlay_cons]
      exact ih _ ht

theorem lookup_overlay_of_all_invalid (fd : Params) (row : Record) (k : String)
    (h : ∀ v, (k, v) ∈ row → is_valid_param k v eventReservedKeys = false) :
    lookupKey (overlayParams fd row) k = lookupKey fd k := by
  induction row generalizing fd with
  | nil => rfl
  | cons kv rest ih =>
    obtain ⟨k1, v1⟩ := kv
    rw [overlay_cons]
    have hrest : ∀ v, (k, v) ∈ rest → is_valid_param k v eventReservedKeys = false :=
      fun v hv => h v (List.mem_cons_of_mem _ hv)
    by_cases hk : k1 = k
    · subst hk
      have : is_valid_param k1 v1 eventReservedKeys = false := h v1 (List.mem_cons_self _ _)
      simp only [this, Bool.false_eq_true, if_false]
      exact ih fd hrest
    · by_cases hval : is_valid_param k1 v1 eventReservedKeys
      · simp only [hval, if_true]
        rw [ih _ hrest, lookup_setParam_ne fd k1 k v1 hk]
      · simp only [hval, Bool.false_eq_true, if_false]
        exact ih fd hrest

theorem lookup_overlay_of_notMem (fd : Params) (row : Record) (k : String)
    (h : k ∉ row.map Prod.fst) :
    lookupKey (overlayParams fd row) k = lookupKey fd k := by
  apply lookup_overlay_of_all_invalid
  intro v hv
  exact absurd (List.mem_map.mpr ⟨(k, v), hv, rfl⟩) h

theorem lookup_overlay_of_lookup_valid (fd : Params) (row : Record) (k : String) (v : Value)
    (hnd : (row.map Prod.fst).Nodup) (hl : lookupKey row k = some v)
    (hv : is_valid_param k v eventReservedKeys = true) :
    lookupKey (overlayParams fd row) k = some v := by
  induction row generalizing fd with
  | nil => simp at hl
  | cons kv rest ih =>
    obtain ⟨k1, v1⟩ := kv
    simp only [List.map_cons, List.nodup_cons] at hnd
    rw [overlay_cons]
    by_cases hk : k1 = k
    · subst hk
      simp at hl
      subst hl
      simp only [hv, if_true]
      rw [lookup_overlay_of_notMem _ _ _ hnd.1]
      exact lookup_setParam_self fd k1 _
    · simp only [lookupKey_cons, hk, if_false] at hl
      exact ih _ hnd.2 hl

theorem lookup_overlay_of_lookup_invalid (fd : Params) (row : Record) (k : String) (v : Value)
    (hnd : (row.map Prod.fst).Nodup) (hl : lookupKey row k = some v)
    (hv : is_valid_param k v eventReservedKeys = false) :
    lookupKey (overlayParams fd row) k = lookupKey fd k := by
  induction row generalizing fd with
  | nil => simp at hl
  | cons kv rest ih =>
    obtain ⟨k1, v1⟩ := kv
    simp only [List.map_cons, List.nodup_cons] at hnd
    rw [overlay_cons]
    by_cases hk : k1 = k
    · subst hk
      simp at hl
      subst hl
      simp only [hv, Bool.false_eq_true, if_false]
      exact lookup_overlay_of_notMem fd rest k1 hnd.1
    · simp only [lookupKey_cons, hk, if_false] at hl
      by_cases hval : is_valid_param k1 v1 eventReservedKeys
      · simp only [hval, if_true]
        rw [ih _ hnd.2 hl, lookup_setParam_ne fd k1 k v1 hk]
      · simp only [hval, Bool.false_eq_true, if_false]
        exact ih _ hnd.2 hl

end Py

/-! ### Per-record processing lemmas -/

namespace Py

theorem processRecord_skipped (g : String) (o : Payload → Bool) (fd : Params) (row : Record)
    (h : nameTruthyB row = false) : processRecord g o fd row = (.skipped, fd) := by
  unfold nameTruthyB at h
  unfold processRecord
  cases hn : lookupKey row "name" with
  | none => rfl
  | some v =>
    rw [hn] at h
    simp only [Option.getD_some] at h
    simp [h]

theorem processRecord_of_str (g : String) (o : Payload → Bool) (fd : Params) (row : Record)
    (s : String) (hn : lookupKey row "name" = some (Value.str s)) (hs : s ≠ "") :
    processRecord g o fd row =
      if o (dispatchPayload g fd row s) then
        (RecResult.sent (dispatchPayload g fd row s), overlayParams fd row)
      else (RecResult.postFailed (dispatchPayload g fd row s), overlayParams fd row) := by
  have ht : (Value.str s).truthy = true := by
    simp [Value.truthy, hs]
  unfold processRecord
  rw [hn]
  simp only [ht, Bool.not_true, Bool.false_eq_true, if_false]
  unfold dispatchPayload expectedClientId expectedUserId
  rfl

theorem processRecord_attempted_of_str (g : String) (o : Payload → Bool) (fd : Params)
    (row : Record) (s : String) (hn : lookupKey row "name" = some (Value.str s)) (hs : s ≠ "") :
    (processRecord g o fd row).1.attempted? = some (dispatchPayload g fd row s) := by
  rw [processRecord_of_str g o fd row s hn hs]
  by_cases ho : o (dispatchPayload g fd row s) <;>
    simp [ho, RecResult.attempted?]

theorem processRecord_snd_of_str (g : String) (o : Payload → Bool) (fd : Params)
    (row : Record) (s : String) (hn : lookupKey row "name" = some (Value.str s)) (hs : s ≠ "") :
    (processRecord g o fd row).2 = overlayParams fd row := by
  rw [processRecord_of_str g o fd row s hn hs]
  by_cases ho : o (dispatchPayload g fd row s) <;> simp [ho]

theorem processRecord_errored (g : String) (o : Payload → Bool) (fd : Params) (row : Record)
    (v : Value) (hn : lookupKey row "name" = some v) (ht : v.truthy = true)
    (hv : ∀ s, v ≠ Value.str s) :
    processRecord g o fd row = (.errored, overlayParams fd row) := by
  unfold processRecord
  rw [hn]
  simp only [ht, Bool.not_true, Bool.false_eq_true, if_false]

/-- Exactly one of the three shapes of a record step: skipped (falsy
name, dictionary untouched), errored after the merge (truthy non-string
name), or dispatched after the merge (truthy string name). -/
theorem processRecord_cases (g : String) (o : Payload → Bool) (fd : Params) (row : Record) :
    (nameTruthyB row = false ∧ processRecord g o fd row = (.skipped, fd))
    ∨ (processRecord g o fd row = (.errored, overlayParams fd row))
    ∨ (∃ s, lookupKey row "name" = some (Value.str s) ∧ s ≠ "" ∧
        (processRecord g o fd row).1.attempted? = some (dispatchPayload g fd row s) ∧
        (processRecord g o fd row).2 = overlayParams fd row) := by
  by_cases h : nameTruthyB row = true
  · have h2 := h
    unfold nameTruthyB at h2
    cases hn : lookupKey row "name" with
    | none => rw [hn] at h2; simp [Value.truthy] at h2
    | some v =>
      rw [hn] at h2
      simp only [Option.getD_some] at h2
      cases v with
      | str s =>
        have hs : s ≠ "" := by
          intro hempty
          rw [hempty] at h2
          simp [Value.truthy] at h2
        exact Or.inr (Or.inr ⟨s, rfl, hs,
          processRecord_attempted_of_str g o fd row s hn hs,
          processRecord_snd_of_str g o fd row s hn hs⟩)
      | int n =>
        exact Or.inr (Or.inl (processRecord_errored g o fd row _ hn h2
          (by intro s hcn; cases hcn)))
      | bool b =>
        exact Or.inr (Or.inl (processRecord_errored g o fd row _ hn h2
          (by intro s hcn; cases hcn)))
      | null => simp [Value.truthy] at h2
  · have h0 : nameTruthyB row = false := by
      cases h1 : nameTruthyB row
      · rfl
      · exact absurd h1 h
    exact Or.inl ⟨h0, processRecord_skipped g o fd row h0⟩

/-- The result dictionary of a step is either the input dictionary or
the merged one. -/
theorem processRecord_snd_cases (g : String) (o : Payload → Bool) (fd : Params) (row : Record) :
    (processRecord g o fd row).2 = fd ∨ (processRecord g o fd row).2 = overlayParams fd row := by
  rcases processRecord_cases g o fd row with ⟨_, h⟩ | h | ⟨s, _, _, _, h⟩
  · exact Or.inl (by rw [h])
  · exact Or.inr (by rw [h])
  · exact Or.inr h

/-- An attempted payload carries exactly the merged dictionary as the
parameters of its single event. -/
theorem processRecord_attempted (g : String) (o : Payload → Bool) (fd : Params) (row : Record)
    (p : Payload) (h : (processRecord g o fd row).1.attempted? = some p) :
    ∀ e ∈ p.events, e.params = (processRecord g o fd row).2 := by
  rcases processRecord_cases g o fd row with ⟨_, hc⟩ | hc | ⟨s, _, _, hc1, hc2⟩
  · rw [hc] at h
    simp [RecResult.attempted?] at h
  · rw [hc] at h
    simp [RecResult.attempted?] at h
  · rw [hc1] at h
    cases h
    intro e he
    simp only [dispatchPayload, List.mem_singleton] at he
    rw [he, hc2]

/-- Neither the resulting dictionary nor the attempted payload depends
on whether the transport succeeds or raises. -/
theorem processRecord_oracle (g : String) (o o2 : Payload → Bool) (fd : Params) (row : Record) :
    (processRecord g o fd row).2 = (processRecord g o2 fd row).2 ∧
    (processRecord g o fd row).1.attempted? = (processRecord g o2 fd row).1.attempted? := by
  rcases processRecord_cases g o fd row with ⟨hf, hc⟩ | hc | ⟨s, hn, hs, hc1, hc2⟩
  · rw [hc, processRecord_skipped g o2 fd row hf]
    exact ⟨rfl, rfl⟩
  · rcases processRecord_cases g o2 fd row with ⟨hf2, hc2⟩ | hc2 | ⟨s2, hn2, hs2, hc2a, hc2b⟩
    · have hcontra := (processRecord_skipped g o fd row hf2).symm.trans hc
      simp at hcontra
    · rw [hc, hc2]
      exact ⟨rfl, rfl⟩
    · have hcontra := processRecord_attempted_of_str g o fd row s2 hn2 hs2
      rw [hc] at hcontra
      simp [RecResult.attempted?] at hcontra
  · constructor
    · rw [hc2, processRecord_snd_of_str g o2 fd row s hn hs]
    · rw [hc1, processRecord_attempted_of_str g o2 fd row s hn hs]

end Py

/-! ### Batch-loop lemmas -/

namespace Py

theorem attemptedPosts_nil : attemptedPosts [] = [] := rfl

theorem attemptedPosts_cons_none (r : RecResult) (rs : List RecResult)
    (h : r.attempted? = none) : attemptedPosts (r :: rs) = attemptedPosts rs := by
  unfold attemptedPosts
  rw [List.filterMap_cons, h]

theorem attemptedPosts_cons_some (r : RecResult) (rs : List RecResult) (p : Payload)
    (h : r.attempted? = some p) : attemptedPosts (r :: rs) = p :: attemptedPosts rs := by
  unfold attemptedPosts
  rw [List.filterMap_cons, h]

theorem sendLoop_nil (gen : Nat → String) (o : Payload → Bool) (i : Nat) (fd : Params) :
    sendLoop gen o i fd [] = (fd, []) := rfl

theorem sendLoop_cons (gen : Nat → String) (o : Payload → Bool) (i : Nat) (fd : Params)
    (row : Record) (rest : List Record) :
    sendLoop gen o i fd (row :: rest) =
      ((sendLoop gen o (i + 1) (processRecord (gen i) o fd row).2 rest).1,
       (processRecord (gen i) o fd row).1 ::
         (sendLoop gen o (i + 1) (processRecord (gen i) o fd row).2 rest).2) := rfl

theorem sendLoop_length (gen : Nat → String) (o : Payload → Bool) (i : Nat) (fd : Params)
    (evs : List Record) : (sendLoop gen o i fd evs).2.length = evs.length := by
  induction evs generalizing i fd with
  | nil => rfl
  | cons row rest ih =>
    rw [sendLoop_cons]
    simp [ih]

theorem sendLoop_append (gen : Nat → String) (o : Payload → Bool) (i : Nat) (fd : Params)
    (xs ys : List Record) :
    sendLoop gen o i fd (xs ++ ys) =
      ((sendLoop gen o (i + xs.length) (sendLoop gen o i fd xs).1 ys).1,
       (sendLoop gen o i fd xs).2 ++
         (sendLoop gen o (i + xs.length) (sendLoop gen o i fd xs).1 ys).2) := by
  induction xs generalizing i fd with
  | nil => simp [sendLoop_nil]
  | cons row rest ih =>
    rw [List.cons_append, sendLoop_cons, sendLoop_cons, ih]
    have harith : i + 1 + rest.length = i + (rest.length + 1) := by omega
    simp [harith]

/-- Keys present in the running dictionary stay present, and appear in
the parameters of every later attempted payload. -/
theorem sendLoop_hasKey (gen : Nat → String) (o : Payload → Bool) (i : Nat) (fd : Params)
    (evs : List Record) (k : String) (h : hasKey fd k = true) :
    hasKey (sendLoop gen o i fd evs).1 k = true ∧
    ∀ p ∈ attemptedPosts (sendLoop gen o i fd evs).2, ∀ e ∈ p.events,
      hasKey e.params k = true := by
  induction evs generalizing i fd with
  | nil => exact ⟨h, by simp [sendLoop_nil, attemptedPosts_nil]⟩
  | cons row rest ih =>
    have hstep : hasKey (processRecord (gen i) o fd row).2 k = true := by
      rcases processRecord_snd_cases (gen i) o fd row with hc | hc
      · rw [hc]; exact h
      · rw [hc]; exact hasKey_overlay_mono fd row k h
    have hrest := ih (i + 1) (processRecord (gen i) o fd row).2 hstep
    rw [sendLoop_cons]
    refine ⟨hrest.1, ?_⟩
    cases hatt : (processRecord (gen i) o fd row).1.attempted? with
    | none =>
      rw [attemptedPosts_cons_none _ _ hatt]
      exact hrest.2
    | some p =>
      rw [attemptedPosts_cons_some _ _ _ hatt]
      intro q hq e he
      rcases List.mem_cons.mp hq with hq1 | hq2
      · subst hq1
        have hpar := processRecord_attempted (gen i) o fd row q hatt e he
        rw [hpar]
        exact hstep
      · exact hrest.2 q hq2 e he

/-- A binding whose key is never validly supplied by any record keeps
its value in the running dictionary and in every attempted payload. -/
theorem sendLoop_lookup (gen : Nat → String) (o : Payload → Bool) (i : Nat) (fd : Params)
    (evs : List Record) (k : String) (X : Value) (h : lookupKey fd k = some X)
    (hrows : ∀ row ∈ evs, ∀ v, (k, v) ∈ row →
      is_valid_param k v eventReservedKeys = false) :
    lookupKey (sendLoop gen o i fd evs).1 k = some X ∧
    ∀ p ∈ attemptedPosts (sendLoop gen o i fd evs).2, ∀ e ∈ p.events,
      lookupKey e.params k = some X := by
  induction evs generalizing i fd with
  | nil => exact ⟨h, by simp [sendLoop_nil, attemptedPosts_nil]⟩
  | cons row rest ih =>
    have hstep : lookupKey (processRecord (gen i) o fd row).2 k = some X := by
      rcases processRecord_snd_cases (gen i) o fd row with hc | hc
      · rw [hc]; exact h
      · rw [hc]
        rw [lookup_overlay_of_all_invalid fd row k
          (fun v hv => hrows row (List.mem_cons_self _ _) v hv)]
        exact h
    have hrest := ih (i + 1) (processRecord (gen i) o fd row).2 hstep
      (fun r hr v hv => hrows r (List.mem_cons_of_mem _ hr) v hv)
    rw [sendLoop_cons]
    refine ⟨hrest.1, ?_⟩
    cases hatt : (processRecord (gen i) o fd row).1.attempted? with
    | none =>
      rw [attemptedPosts_cons_none _ _ hatt]
      exact hrest.2
    | some p =>
      rw [attemptedPosts_cons_some _ _ _ hatt]
      intro q hq e he
      rcases List.mem_cons.mp hq with hq1 | hq2
      · subst hq1
        have hpar := processRecord_attempted (gen i) o fd row q hatt e he
        rw [hpar]
        exact hstep
      · exact hrest.2 q hq2 e he

/-- Neither the final dictionary nor the sequence of attempted payloads
depends on which posts the transport fails. -/
theorem sendLoop_oracle (gen : Nat → String) (o o2 : Payload → Bool) (i : Nat) (fd : Params)
    (evs : List Record) :
    (sendLoop gen o i fd evs).1 = (sendLoop gen o2 i fd evs).1 ∧
    attemptedPosts (sendLoop gen o i fd evs).2 =
      attemptedPosts (sendLoop gen o2 i fd evs).2 := by
  induction evs generalizing i fd with
  | nil => exact ⟨rfl, rfl⟩
  | cons row rest ih =>
    have hor := processRecord_oracle (gen i) o o2 fd row
    have hrest := ih (i + 1) (processRecord (gen i) o2 fd row).2
    rw [sendLoop_cons, sendLoop_cons, hor.1]
    refine ⟨hrest.1, ?_⟩
    cases hatt : (processRecord (gen i) o2 fd row).1.attempted? with
    | none =>
      rw [attemptedPosts_cons_none _ _ (hor.2.trans hatt),
          attemptedPosts_cons_none _ _ hatt]
      exact hrest.2
    | some p =>
      rw [attemptedPosts_cons_some _ _ _ (hor.2.trans hatt),
          attemptedPosts_cons_some _ _ _ hatt, hrest.2]

/-- A record whose `name`, when truthy, is a string. -/
theorem name_str_of_wellTyped_truthy (row : Record) (hw : nameWellTyped row = true)
    (ht : nameTruthyB row = true) :
    ∃ s, lookupKey row "name" = some (Value.str s) ∧ s ≠ "" := by
  unfold nameWellTyped at hw
  unfold nameTruthyB at ht
  cases hn : lookupKey row "name" with
  | none => rw [hn] at ht; simp [Value.truthy] at ht
  | some v =>
    rw [hn] at hw ht
    simp only [Option.getD_some] at ht
    cases v with
    | str s =>
      refine ⟨s, rfl, ?_⟩
      intro hempty
      rw [hempty] at ht
      simp [Value.truthy] at ht
    | int n => simp [ht] at hw
    | bool b => simp [ht] at hw
    | null => simp [Value.truthy] at ht

/-- When every record has a string-or-falsy `name`, the number of
attempted posts is the number of records whose `name` is truthy. -/
theorem sendLoop_count (gen : Nat → String) (o : Payload → Bool) (i : Nat) (fd : Params)
    (evs : List Record) (h : ∀ row ∈ evs, nameWellTyped row = true) :
    (attemptedPosts (sendLoop gen o i fd evs).2).length = evs.countP nameTruthyB := by
  induction evs generalizing i fd with
  | nil => simp [sendLoop_nil, attemptedPosts_nil]
  | cons row rest ih =>
    have hrest := ih (i + 1) (processRecord (gen i) o fd row).2
      (fun r hr => h r (List.mem_cons_of_mem _ hr))
    rw [sendLoop_cons, List.countP_cons]
    cases ht : nameTruthyB row with
    | false =>
      have hps := processRecord_skipped (gen i) o fd row ht
      have hnone : (processRecord (gen i) o fd row).1.attempted? = none := by
        rw [hps]
        rfl
      rw [attemptedPosts_cons_none _ _ hnone]
      simpa [ht] using hrest
    | true =>
      obtain ⟨s, hn, hs⟩ :=
        name_str_of_wellTyped_truthy row (h row (List.mem_cons_self _ _)) ht
      rw [attemptedPosts_cons_some _ _ _
        (processRecord_attempted_of_str (gen i) o fd row s hn hs)]
      simpa [ht] using hrest

end Py

/-! ### send_events gating -/

namespace Py

theorem Tadau.init_eq (a m : Option String) (oi : Value) (fdim : Option Params) :
    Tadau.init a m oi fdim =
      if oi.truthy = false then Except.error "Tadau: Class initiated not opted in"
      else if (optStrTruthy a && optStrTruthy m) = false then
        Except.error "Tadau: invalid api_secret or measurement_id"
      else Except.ok ⟨a, m, oi, fdim.getD []⟩ := by
  unfold Tadau.init Tadau.is_valid_instance
  by_cases h1 : oi.truthy <;> by_cases h2 : optStrTruthy a <;> by_cases h3 : optStrTruthy m <;>
    simp [h1, h2, h3]

theorem send_events_not_opt (gen : Nat → String) (o : Payload → Bool) (t : Tadau)
    (evs : List Record) (h : t.opt_in.truthy = false) :
    Tadau.send_events gen o t evs = (t, []) := by
  unfold Tadau.send_events
  simp [h]

theorem send_events_invalid (gen : Nat → String) (o : Payload → Bool) (t : Tadau)
    (evs : List Record) (h : t.is_valid_instance = false) :
    Tadau.send_events gen o t evs = (t, []) := by
  unfold Tadau.send_events
  by_cases h1 : t.opt_in.truthy <;> simp [h1, h]

theorem send_events_nil (gen : Nat → String) (o : Payload → Bool) (t : Tadau) :
    Tadau.send_events gen o t [] = (t, []) := by
  unfold Tadau.send_events
  by_cases h1 : t.opt_in.truthy <;> by_cases h2 : t.is_valid_instance <;> simp [h1, h2]

theorem send_events_open (gen : Nat → String) (o : Payload → Bool) (t : Tadau)
    (evs : List Record) (h1 : t.opt_in.truthy = true) (h2 : t.is_valid_instance = true)
    (h3 : evs.isEmpty = false) :
    Tadau.send_events gen o t evs =
      ({ t with fixed_dimensions := (sendLoop gen o 0 t.fixed_dimensions evs).1 },
       (sendLoop gen o 0 t.fixed_dimensions evs).2) := by
  unfold Tadau.send_events
  simp [h1, h2, h3]

end Py

open Py

/-! ### Claims -/

/-- Claim C2 (confirmed): `send_events` is a no-op — it returns with the
state unchanged and attempts no HTTP request — whenever the reporter is
not opted in, or its configuration is invalid (falsy `api_secret` or
`measurement_id`), or the batch is empty; in particular an opted-out
reporter never produces network traffic. -/
theorem C2_theorem (gen : Nat → String) (o : Payload → Bool) (t : Py.Tadau)
    (evs : List Record)
    (h : t.opt_in.truthy = false ∨ t.is_valid_instance = false ∨ evs = []) :
    Py.Tadau.send_events gen o t evs = (t, []) := by
  rcases h with h | h | h
  · exact send_events_not_opt gen o t evs h
  · exact send_events_invalid gen o t evs h
  · rw [h]
    exact send_events_nil gen o t

/-- Witness for C2: a concrete opted-out reporter with a nonempty batch
sends nothing and is returned unchanged. -/
theorem C2_witness :
    Py.Tadau.send_events genU postAlways tOptOut [rowBasic] = (tOptOut, []) :=
  C2_theorem genU postAlways tOptOut [rowBasic] (Or.inl (by decide))

/-- Claim C8 (confirmed): construction succeeds exactly when `opt_in` is
truthy and both credentials are non-empty (so it fails with a
configuration error when `opt_in` is true but a credential is missing or
empty, and also — the strict variant — whenever `opt_in` is falsy), and
a successfully constructed reporter is always opted in with non-empty
credentials. -/
theorem C8_theorem (a m : Option String) (oi : Value) (fdim : Option Params) :
    (initOk (Py.Tadau.init a m oi fdim) = (oi.truthy && (optStrTruthy a && optStrTruthy m)))
    ∧ (∀ t, Py.Tadau.init a m oi fdim = .ok t →
        t.opt_in.truthy = true ∧ optStrTruthy t.api_secret = true ∧
          optStrTruthy t.measurement_id = true) := by
  constructor
  · unfold Py.Tadau.init initOk
    by_cases h1 : oi.truthy <;> by_cases h2 : optStrTruthy a <;>
      by_cases h3 : optStrTruthy m <;>
        simp [h1, h2, h3, Py.Tadau.is_valid_instance]
  · intro t ht
    rw [Py.Tadau.init_eq] at ht
    by_cases h1 : oi.truthy
    · by_cases h2 : optStrTruthy a
      · by_cases h3 : optStrTruthy m
        · simp [h1, h2, h3] at ht
          rw [← ht]
          exact ⟨h1, h2, h3⟩
        · simp [h1, h2, h3] at ht
      · simp [h1, h2] at ht
    · simp [h1] at ht

/-- Witness for C8: the credentials of the repository's own tests
construct successfully, and the constructed reporter is opted in with
non-empty credentials. -/
theorem C8_witness :
    initOk (Py.Tadau.init (some "1232") (some "G-1223214") (Value.bool true) none) = true
    ∧ ((Value.bool true).truthy = true ∧ optStrTruthy (some "1232") = true ∧
        optStrTruthy (some "G-1223214") = true) := by
  have h := C8_theorem (some "1232") (some "G-1223214") (Value.bool true) none
  refine ⟨h.1.trans (by decide), ?_⟩
  have h2 := h.2 ⟨some "1232", some "G-1223214", Value.bool true, []⟩ rfl
  exact h2

/-- Claim C9 (code_bug): a directly passed `opt_in` is not interpreted
by `_is_opt_in` — the string `"false"` is truthy, so the constructor
accepts it as opted in and `send_events` then posts, while the
config-file path interprets the very same value as `False`
(and the class docstring's own usage example passes such an environment
string directly). -/
theorem C9_theorem :
    Py.Tadau.init (some "secret") (some "G-1") (Value.str "false") none =
      Except.ok ⟨some "secret", some "G-1", Value.str "false", []⟩
    ∧ (Py.Tadau.send_events genU postAlways
        ⟨some "secret", some "G-1", Value.str "false", []⟩ [rowBasic]).2.length = 1
    ∧ Py.Tadau.is_opt_in (Value.str "false") = Except.ok false := by
  refine ⟨rfl, rfl, ?_⟩
  rfl

/-- Counterexample to C1 as stated: one `send_events` call on a reporter
with fixed dimension `deploy_id` and a record carrying a custom `value`
parameter changes the reporter's `fixed_dimensions` mapping. -/
theorem C1_counterexample :
    (Py.Tadau.send_events genU postAlways tFixed [rowBasic]).1.fixed_dimensions ≠
      tFixed.fixed_dimensions := by
  decide

/-- Claim C1 (corrected): `send_events` leaves `api_secret`,
`measurement_id` and `opt_in` unchanged and never removes a key from
`fixed_dimensions`, but `fixed_dimensions` is not immutable: the merge
loop aliases it, so valid custom parameters of processed records are
added to it. -/
theorem C1_theorem (gen : Nat → String) (postOk : Payload → Bool) (t : Py.Tadau)
    (evs : List Record) :
    (Py.Tadau.send_events gen postOk t evs).1.api_secret = t.api_secret
    ∧ (Py.Tadau.send_events gen postOk t evs).1.measurement_id = t.measurement_id
    ∧ (Py.Tadau.send_events gen postOk t evs).1.opt_in = t.opt_in
    ∧ ∀ k, hasKey t.fixed_dimensions k = true →
        hasKey (Py.Tadau.send_events gen postOk t evs).1.fixed_dimensions k = true := by
  unfold Py.Tadau.send_events
  split
  · exact ⟨rfl, rfl, rfl, fun k hk => hk⟩
  · split
    · exact ⟨rfl, rfl, rfl, fun k hk => hk⟩
    · split
      · exact ⟨rfl, rfl, rfl, fun k hk => hk⟩
      · refine ⟨rfl, rfl, rfl, ?_⟩
        intro k hk
        exact (sendLoop_hasKey gen postOk 0 t.fixed_dimensions evs k hk).1

/-- Witness for C1 (amended): on a concrete call the credential fields
and opt-in are unchanged and the pre-existing `deploy_id` key is still
present. -/
theorem C1_witness :
    (Py.Tadau.send_events genU postAlways tFixed [rowBasic]).1.api_secret = tFixed.api_secret
    ∧ (Py.Tadau.send_events genU postAlways tFixed [rowBasic]).1.opt_in = tFixed.opt_in
    ∧ hasKey (Py.Tadau.send_events genU postAlways tFixed [rowBasic]).1.fixed_dimensions
        "deploy_id" = true := by
  have h := C1_theorem genU postAlways tFixed [rowBasic]
  exact ⟨h.1, h.2.2.1, h.2.2.2 "deploy_id" (by decide)⟩

theorem lookupKey_eq_none_notMem (m : List (String × Value)) (k : String)
    (h : lookupKey m k = none) : k ∉ m.map Prod.fst := by
  induction m with
  | nil => simp
  | cons kv rest ih =>
    obtain ⟨k1, v1⟩ := kv
    by_cases hk : k1 = k
    · rw [lookupKey_cons, if_pos hk] at h
      cases h
    · rw [lookupKey_cons, if_neg hk] at h
      simp only [List.map_cons, List.mem_cons]
      intro hc
      rcases hc with hc | hc
      · exact hk hc.symm
      · exact ih h hc

theorem ite_ok_inv {α : Type} (c : Prop) [Decidable c] (x : α) (e : String) (y : α)
    (h : (if c then Except.ok x else Except.error e) = Except.ok y) : y = x := by
  split at h
  · injection h with h1
    exact h1.symm
  · cases h

/-- Counterexample to C3 as stated: in the legacy `process`, a record
with a `client_id` but no `name` raises `KeyError`, and the bare
`except` around the whole loop silently drops the remaining records —
the same well-formed sibling that alone produces one call produces none
here. -/
theorem C3_counterexample :
    Legacy.process postAlways [rowNoName, rowBasic] = []
    ∧ (Legacy.process postAlways [rowBasic]).length = 1 := by
  constructor <;> rfl

/-- Claim C3 (corrected, for the 2024 `send_events`): every failure is
absorbed — the final state and the attempted posts are the same as with
an always-succeeding transport, and when the gate is open every record
of the batch yields a result (one record's exception or transport
failure never aborts the rest). -/
theorem C3_theorem (gen : Nat → String) (postOk : Payload → Bool) (t : Py.Tadau)
    (evs : List Record) :
    (Py.Tadau.send_events gen postOk t evs).1 =
      (Py.Tadau.send_events gen postAlways t evs).1
    ∧ attemptedPosts (Py.Tadau.send_events gen postOk t evs).2 =
        attemptedPosts (Py.Tadau.send_events gen postAlways t evs).2
    ∧ ((t.opt_in.truthy && (t.is_valid_instance && !evs.isEmpty)) = true →
        (Py.Tadau.send_events gen postOk t evs).2.length = evs.length) := by
  by_cases h1 : t.opt_in.truthy
  · by_cases h2 : t.is_valid_instance
    · cases hevs : evs.isEmpty with
      | true =>
        have hnil : evs = [] := List.isEmpty_iff.mp hevs
        subst hnil
        rw [send_events_nil, send_events_nil]
        exact ⟨rfl, rfl, fun hg => by simp at hg⟩
      | false =>
        rw [send_events_open gen postOk t evs h1 h2 hevs,
            send_events_open gen postAlways t evs h1 h2 hevs]
        have hor := sendLoop_oracle gen postOk postAlways 0 t.fixed_dimensions evs
        refine ⟨?_, hor.2, ?_⟩
        · rw [hor.1]
        · intro _
          exact sendLoop_length gen postOk 0 t.fixed_dimensions evs
    · have h2f : t.is_valid_instance = false := by
        cases hq : t.is_valid_instance
        · rfl
        · exact absurd hq h2
      rw [send_events_invalid gen postOk t evs h2f,
          send_events_invalid gen postAlways t evs h2f]
      exact ⟨rfl, rfl, fun hg => by simp [h2f] at hg⟩
  · have h1f : t.opt_in.truthy = false := by
      cases hq : t.opt_in.truthy
      · rfl
      · exact absurd hq h1
    rw [send_events_not_opt gen postOk t evs h1f,
        send_events_not_opt gen postAlways t evs h1f]
    exact ⟨rfl, rfl, fun hg => by simp [h1f] at hg⟩

/-- Witness for C3 (amended): a transport that fails every post leaves
the same state and attempted posts as one that always succeeds, and both
records of a 2-record batch are still processed. -/
theorem C3_witness :
    (Py.Tadau.send_events genU postNever tFixed [rowBasic, rowNoClient]).1 =
      (Py.Tadau.send_events genU postAlways tFixed [rowBasic, rowNoClient]).1
    ∧ attemptedPosts (Py.Tadau.send_events genU postNever tFixed [rowBasic, rowNoClient]).2 =
        attemptedPosts (Py.Tadau.send_events genU postAlways tFixed [rowBasic, rowNoClient]).2
    ∧ (Py.Tadau.send_events genU postNever tFixed [rowBasic, rowNoClient]).2.length = 2 := by
  have h := C3_theorem genU postNever tFixed [rowBasic, rowNoClient]
  exact ⟨h.1, h.2.1, h.2.2 (by decide)⟩

/-- Claim C5 (confirmed): a record whose `name` is a non-empty string is
dispatched (in both implementations, whenever it is dispatched) with the
event name equal to the input name with every character outside ASCII
letters, digits and hyphen removed. -/
theorem C5_theorem (gen : String) (o o2 : Payload → Bool) (fd : Params) (row : Record)
    (s : String) (hn : lookupKey row "name" = some (Value.str s)) (hs : s ≠ "") :
    ((processRecord gen o fd row).1.attempted?).map (fun p => p.events.map GAEvent.name) =
      some [format_to_alphanumeric s]
    ∧ (∀ p, Legacy.body o2 row = .ok (some p) →
        p.events.map GAEvent.name = [Legacy.filter_alphanumeric_only s]) := by
  constructor
  · rw [processRecord_attempted_of_str gen o fd row s hn hs]
    simp [dispatchPayload]
  · intro p hp
    unfold Legacy.body at hp
    by_cases hc : ((lookupKey row "client_id").getD Value.null).truthy
    · rw [hn] at hp
      simp only [hc, Bool.not_true, Bool.false_eq_true, if_false] at hp
      have hpe := ite_ok_inv _ _ _ _ hp
      injection hpe with hp2
      rw [hp2]
      rfl
    · simp [hc] at hp

/-- Witness for C5: the repository's own test record with name
`"event name 1"` is dispatched as `"eventname1"` by both
implementations. -/
theorem C5_witness :
    ((processRecord "u" postAlways [] rowTestName).1.attempted?).map
        (fun p => p.events.map GAEvent.name) = some ["eventname1"]
    ∧ (∀ p, Legacy.body postAlways rowTestName = .ok (some p) →
        p.events.map GAEvent.name = ["eventname1"]) := by
  have h := C5_theorem "u" postAlways postAlways [] rowTestName "event name 1" rfl (by decide)
  refine ⟨h.1.trans (by decide), fun p hp => (h.2 p hp).trans (by decide)⟩

/-- Counterexample to C6 as stated: the legacy `process` dispatches a
record whose `name` is the empty string (it has a `client_id`), instead
of skipping it. -/
theorem C6_counterexample :
    (Legacy.process postAlways [rowEmptyName]).length = 1 := by
  rfl

/-- Claim C6 (corrected, for the 2024 `send_events`): in a batch passing
the gate, with every `name` a string or falsy, the number of attempted
HTTP calls is exactly the number of records with a truthy `name` —
records missing `name` are skipped, and siblings (even without a
`client_id`) still produce their call. -/
theorem C6_theorem (gen : Nat → String) (o : Payload → Bool) (t : Py.Tadau)
    (evs : List Record)
    (hgate : (t.opt_in.truthy && (t.is_valid_instance && !evs.isEmpty)) = true)
    (hwt : evs.all nameWellTyped = true) :
    (attemptedPosts (Py.Tadau.send_events gen o t evs).2).length =
      evs.countP nameTruthyB := by
  simp only [Bool.and_eq_true, Bool.not_eq_true'] at hgate
  obtain ⟨h1, h2, h3⟩ := hgate
  rw [send_events_open gen o t evs h1 h2 h3]
  refine sendLoop_count gen o 0 t.fixed_dimensions evs ?_
  intro row hr
  exact List.all_eq_true.mp hwt row hr

/-- Witness for C6: a 2-record batch — one record with a name but no
`client_id`, one record with no name — produces exactly one call. -/
theorem C6_witness :
    (attemptedPosts
      (Py.Tadau.send_events genU postAlways tFixed [rowNoClient, rowNoName]).2).length = 1 := by
  have h := C6_theorem genU postAlways tFixed [rowNoClient, rowNoName] (by decide) (by decide)
  exact h.trans (by decide)

/-- Claim C7 (confirmed): a dispatched payload's `client_id` is the
record's value (rendered as a string) when present and truthy, and
otherwise the freshly generated identifier — the record is dispatched
either way; `user_id` is present in the payload exactly when the
record's value is truthy, rendered as a string. -/
theorem C7_theorem (gen : String) (o : Payload → Bool) (fd : Params) (row : Record)
    (s : String) (hn : lookupKey row "name" = some (Value.str s)) (hs : s ≠ "") :
    ((processRecord gen o fd row).1.attempted?).map (fun p => p.client_id) =
      some (if ((lookupKey row "client_id").getD Value.null).truthy then
              ((lookupKey row "client_id").getD Value.null).render
            else gen)
    ∧ ((processRecord gen o fd row).1.attempted?).map (fun p => p.user_id) =
        some (if ((lookupKey row "user_id").getD Value.null).truthy then
                some ((lookupKey row "user_id").getD Value.null).render
              else none) := by
  rw [processRecord_attempted_of_str gen o fd row s hn hs]
  exact ⟨rfl, rfl⟩

/-- Witness for C7: a record with a name but neither `client_id` nor
`user_id` is still dispatched, with the generated identifier as
`client_id` and no `user_id`. -/
theorem C7_witness :
    ((processRecord "u" postAlways [] rowNoClient).1.attempted?).map
        (fun p => p.client_id) = some "u"
    ∧ ((processRecord "u" postAlways [] rowNoClient).1.attempted?).map
        (fun p => p.user_id) = some none := by
  have h := C7_theorem "u" postAlways [] rowNoClient "event_name" rfl (by decide)
  exact ⟨h.1.trans (by decide), h.2.trans (by decide)⟩

/-- Counterexample to C4 as stated: with fixed dimension
`deploy_id = "X"`, a record that itself carries a truthy
`deploy_id = "Y"` is dispatched with `deploy_id = "Y"` in its params —
not every dispatched event carries the fixed value. -/
theorem C4_counterexample :
    (attemptedPosts (Py.Tadau.send_events genU postAlways tFixed [rowOverride]).2).length = 1
    ∧ ¬ (∀ p ∈ attemptedPosts (Py.Tadau.send_events genU postAlways tFixed [rowOverride]).2,
          ∀ e ∈ p.events, lookupKey e.params "deploy_id" = some (Value.str "X")) := by
  decide

/-- Claim C4 (corrected): the dispatched params are the current fixed
dimensions overlaid with exactly the truthy non-reserved record fields
(record fields win); consequently `deploy_id = X` appears in every
dispatched event provided no record supplies its own truthy `deploy_id`
(which would overwrite it). -/
theorem C4_theorem :
    (∀ (gen : String) (o : Payload → Bool) (fd : Params) (row : Record) (s k : String),
      (row.map Prod.fst).Nodup →
      lookupKey row "name" = some (Value.str s) → s ≠ "" →
      ((processRecord gen o fd row).1.attempted?).map
          (fun p => p.events.map (fun e => lookupKey e.params k)) =
        some [match lookupKey row k with
              | some v =>
                  if is_valid_param k v eventReservedKeys then some v else lookupKey fd k
              | none => lookupKey fd k])
    ∧ (∀ (gen : Nat → String) (o : Payload → Bool) (t : Py.Tadau) (evs : List Record)
        (X : Value),
        (t.opt_in.truthy && (t.is_valid_instance && !evs.isEmpty)) = true →
        lookupKey t.fixed_dimensions "deploy_id" = some X →
        (∀ row ∈ evs, ∀ kv ∈ row, kv.1 = "deploy_id" → kv.2.truthy = false) →
        (attemptedPosts (Py.Tadau.send_events gen o t evs).2).all
          (fun p => p.events.all
            (fun e => lookupKey e.params "deploy_id" == some X)) = true) := by
  constructor
  · intro gen o fd row s k hnd hn hs
    rw [processRecord_attempted_of_str gen o fd row s hn hs]
    have hova : (Option.map (fun p => p.events.map (fun e => lookupKey e.params k))
        (some (dispatchPayload gen fd row s))) =
        some [lookupKey (overlayParams fd row) k] := rfl
    rw [hova]
    refine congrArg (fun z => some [z]) ?_
    cases hlk : lookupKey row k with
    | none =>
      rw [lookup_overlay_of_notMem fd row k (lookupKey_eq_none_notMem row k hlk)]
    | some v =>
      by_cases hv : is_valid_param k v eventReservedKeys
      · rw [lookup_overlay_of_lookup_valid fd row k v hnd hlk hv]
        simp [hv]
      · have hvf : is_valid_param k v eventReservedKeys = false := by
          cases hq : is_valid_param k v eventReservedKeys
          · rfl
          · exact absurd hq hv
        rw [lookup_overlay_of_lookup_invalid fd row k v hnd hlk hvf]
        simp [hvf]
  · intro gen o t evs X hgate hfd hrows
    simp only [Bool.and_eq_true, Bool.not_eq_true'] at hgate
    obtain ⟨h1, h2, h3⟩ := hgate
    rw [send_events_open gen o t evs h1 h2 h3]
    have hrows2 : ∀ row ∈ evs, ∀ v, ("deploy_id", v) ∈ row →
        is_valid_param "deploy_id" v eventReservedKeys = false := by
      intro row hr v hv
      have hvt := hrows row hr ("deploy_id", v) hv rfl
      simp only at hvt
      simp [is_valid_param, hvt]
    have hinv := sendLoop_lookup gen o 0 t.fixed_dimensions evs "deploy_id" X hfd hrows2
    rw [List.all_eq_true]
    intro p hp
    rw [List.all_eq_true]
    intro e he
    have hq := hinv.2 p hp e he
    simp [hq]

/-- Witness for C4 (amended): a custom `value` parameter of the record
overlays the fixed dimensions in the dispatched params, and with no
record-supplied `deploy_id` every dispatched event still carries
`deploy_id = "X"`. -/
theorem C4_witness :
    ((processRecord "u" postAlways [("deploy_id", Value.str "X")] rowBasic).1.attempted?).map
        (fun p => p.events.map (fun e => lookupKey e.params "value")) =
      some [some (Value.str "42")]
    ∧ (attemptedPosts (Py.Tadau.send_events genU postAlways tFixed [rowBasic]).2).all
        (fun p => p.events.all
          (fun e => lookupKey e.params "deploy_id" == some (Value.str "X"))) = true := by
  constructor
  · exact (C4_theorem.1 "u" postAlways [("deploy_id", Value.str "X")] rowBasic "n" "value"
      (by decide) rfl (by decide)).trans (by decide)
  · exact C4_theorem.2 genU postAlways tFixed [rowBasic] (Value.str "X") (by decide) rfl
      (by decide)

/-- Claim C10 (confirmed): once `send_events` processes a record with a
truthy name, every valid custom parameter of that record has been merged
into the instance's `fixed_dimensions` (whose key set only grows), so
the parameter key appears in the final mapping and in the params of
every payload dispatched for the records that follow it in the batch. -/
theorem C10_theorem (gen : Nat → String) (o : Payload → Bool) (t : Py.Tadau)
    (evs1 : List Record) (r : Record) (evs2 : List Record) (k : String) (v : Value)
    (h1 : t.opt_in.truthy = true) (h2 : t.is_valid_instance = true)
    (hmem : (k, v) ∈ r) (hval : is_valid_param k v eventReservedKeys = true)
    (hname : nameTruthyB r = true) :
    hasKey (Py.Tadau.send_events gen o t (evs1 ++ r :: evs2)).1.fixed_dimensions k = true
    ∧ (attemptedPosts ((Py.Tadau.send_events gen o t (evs1 ++ r :: evs2)).2.drop
          (evs1.length + 1))).all
        (fun p => p.events.all (fun e => hasKey e.params k)) = true := by
  have h3 : (evs1 ++ r :: evs2).isEmpty = false := by
    cases evs1 <;> rfl
  rw [send_events_open gen o t (evs1 ++ r :: evs2) h1 h2 h3, sendLoop_append, sendLoop_cons]
  simp only [Nat.zero_add]
  have hsk : hasKey (processRecord (gen evs1.length) o
      (sendLoop gen o 0 t.fixed_dimensions evs1).1 r).2 k = true := by
    rcases processRecord_cases (gen evs1.length) o
        (sendLoop gen o 0 t.fixed_dimensions evs1).1 r with ⟨hf, _⟩ | hc | ⟨s, _, _, _, hc⟩
    · simp [hf] at hname
    · rw [hc]
      exact hasKey_overlay_of_mem _ r k v hmem hval
    · rw [hc]
      exact hasKey_overlay_of_mem _ r k v hmem hval
  have hinv := sendLoop_hasKey gen o (evs1.length + 1)
    (processRecord (gen evs1.length) o (sendLoop gen o 0 t.fixed_dimensions evs1).1 r).2
    evs2 k hsk
  have hlen1 : (sendLoop gen o 0 t.fixed_dimensions evs1).2.length = evs1.length :=
    sendLoop_length gen o 0 t.fixed_dimensions evs1
  have hdrop : ((sendLoop gen o 0 t.fixed_dimensions evs1).2 ++
      (processRecord (gen evs1.length) o (sendLoop gen o 0 t.fixed_dimensions evs1).1 r).1 ::
      (sendLoop gen o (evs1.length + 1)
        (processRecord (gen evs1.length) o
          (sendLoop gen o 0 t.fixed_dimensions evs1).1 r).2 evs2).2).drop
        (evs1.length + 1) =
      (sendLoop gen o (evs1.length + 1)
        (processRecord (gen evs1.length) o
          (sendLoop gen o 0 t.fixed_dimensions evs1).1 r).2 evs2).2 := by
    rw [← List.singleton_append, ← List.append_assoc]
    have h4 : ((sendLoop gen o 0 t.fixed_dimensions evs1).2 ++
        [(processRecord (gen evs1.length) o
          (sendLoop gen o 0 t.fixed_dimensions evs1).1 r).1]).length = evs1.length + 1 := by
      simp [hlen1]
    rw [← h4, List.drop_left]
  rw [hdrop]
  refine ⟨hinv.1, ?_⟩
  rw [List.all_eq_true]
  intro p hp
  rw [List.all_eq_true]
  intro e he
  exact hinv.2 p hp e he

/-- Witness for C10: the custom `value` parameter of the first record
ends up in the final `fixed_dimensions` and in the params of the payload
dispatched for the second record. -/
theorem C10_witness :
    hasKey (Py.Tadau.send_events genU postAlways tFixed
        [rowBasic, rowNoClient]).1.fixed_dimensions "value" = true
    ∧ (attemptedPosts ((Py.Tadau.send_events genU postAlways tFixed
          [rowBasic, rowNoClient]).2.drop 1)).all
        (fun p => p.events.all (fun e => hasKey e.params "value")) = true := by
  have h := C10_theorem genU postAlways tFixed [] rowBasic [rowNoClient] "value"
    (Value.str "42") (by decide) (by decide) (by decide) (by decide) (by decide)
  exact ⟨h.1, h.2⟩
